import Mathlib

/-!
Shallow embedding of the BDM chatbot backend (`src/backend/run.py`).

The backend is a Flask app with two routes: `GET /start_chat` creates a fresh
session id, and `POST /chat` runs one send-message operation: retrieve the
stored history, invoke the conversational retrieval chain, append the new
exchange, truncate to the 50 most recent entries, persist best-effort, and
return the answer together with the truncated history.

External collaborators (the LangChain retrieval chain, the Supabase
`store_chat_history` / `retrieve_chat_history` calls, the environment, the wall
clock and the random source behind `uuid.uuid4()`) are passed in as explicit
function parameters; fallible calls return `Except`, mirroring Python
exceptions.  Side effects on persistent storage are made visible as the
explicit lists `storeCalls` / `pipelineCalls` carried by the results.
-/

namespace BDMChatbot

/-- One chat exchange, the record shape built in `process_user_message`:
`{"timestamp": ..., "user_message": ..., "bot_response": ...}`. -/
structure Exchange where
  timestamp : String
  user_message : String
  bot_response : String
  deriving DecidableEq, Repr

/-- The fallback apology returned by `generate_chatbot_response` when the
retrieval chain raises (run.py line 87). -/
def apologyMessage : String := "Sorry, I encountered an error while processing your request."

/-- The body of the 500 response of the `/chat` route (run.py line 150). -/
def serverErrorMessage : String := "An error occurred while processing your request."

/-- The body of the 400 validation response of the `/chat` route
(run.py line 135). -/
def validationErrorMessage : String := "chat_id and user_message are required"

/-- The startup error raised when Supabase credentials are missing
(run.py line 30). -/
def configErrorMessage : String := "Supabase URL and key are not set in the environment variables."

/-- Python's slice `l[-n:]`: the `n` most recent elements (all of them when
`l` is shorter than `n`). -/
def pyLastN (n : Nat) (l : List α) : List α := l.drop (l.length - n)

/-- Python truthiness of an optional string: `data.get(k)` is falsy when the
key is missing (`None`) or maps to the empty string. -/
def pyTruthy : Option String → Bool
  | none => false
  | some s => !(s == "")

/-- `generate_chatbot_response` (run.py lines 78-87): invoke the retrieval
chain with the question and history; on success return `response["answer"]`,
on any exception return the fixed apology string. -/
def generate_chatbot_response (retrieval_chain : String → List Exchange → Except String String)
    (user_message : String) (chat_history : List Exchange) : String :=
  match retrieval_chain user_message chat_history with
  | Except.ok answer => answer
  | Except.error _ => apologyMessage

/-- Result of `process_user_message`: the returned pair plus the visible
effects (the persistence calls attempted and their outcome, which the code
only logs). -/
structure ProcResult where
  bot_response : String
  chat_history : List Exchange
  storeCalls : List (String × List Exchange)
  storeOutcome : Except String Unit
  deriving Repr

/-- `process_user_message` (run.py lines 96-115): compute the bot response,
append the new exchange, truncate with `chat_history[-50:]`, attempt
`store_chat_history` inside a try/except whose failure is only logged, and
return `(bot_response, chat_history)`. -/
def process_user_message (retrieval_chain : String → List Exchange → Except String String)
    (store_chat_history : String → List Exchange → Except String Unit)
    (now : String) (chat_id user_message : String)
    (chat_history : List Exchange) : ProcResult :=
  let bot_response := generate_chatbot_response retrieval_chain user_message chat_history
  let appended := chat_history ++ [{ timestamp := now, user_message := user_message,
                                     bot_response := bot_response }]
  let truncated := pyLastN 50 appended
  { bot_response := bot_response
    chat_history := truncated
    storeCalls := [(chat_id, truncated)]
    storeOutcome := store_chat_history chat_id truncated }

/-- JSON body of a `/chat` response: either an error object or the success
object with `bot_response` and `chat_history`. -/
inductive ChatBody where
  | err (message : String)
  | ok (bot_response : String) (chat_history : List Exchange)
  deriving DecidableEq, Repr

/-- A `/chat` HTTP response together with the visible effects of handling
the request. -/
structure ChatResponse where
  status : Nat
  body : ChatBody
  pipelineCalls : List (String × List Exchange)
  storeCalls : List (String × List Exchange)
  deriving Repr

/-- The `/chat` route handler (run.py lines 127-150): validate that both
fields are present and truthy (else 400), retrieve the stored history with
`retrieve_chat_history(chat_id) or []` (an exception here lands in the
`except` branch returning 500), run `process_user_message` and answer 200
with the bot response and the updated history. -/
def chat (retrieve_chat_history : String → Except String (Option (List Exchange)))
    (retrieval_chain : String → List Exchange → Except String String)
    (store_chat_history : String → List Exchange → Except String Unit)
    (now : String) (chat_id user_message : Option String) : ChatResponse :=
  if !(pyTruthy chat_id) || !(pyTruthy user_message) then
    { status := 400, body := ChatBody.err validationErrorMessage,
      pipelineCalls := [], storeCalls := [] }
  else
    match retrieve_chat_history (chat_id.getD "") with
    | Except.error _ =>
        { status := 500, body := ChatBody.err serverErrorMessage,
          pipelineCalls := [], storeCalls := [] }
    | Except.ok stored =>
        let chat_history := stored.getD []
        let r := process_user_message retrieval_chain store_chat_history now
                   (chat_id.getD "") (user_message.getD "") chat_history
        { status := 200
          body := ChatBody.ok r.bot_response r.chat_history
          pipelineCalls := [(user_message.getD "", chat_history)]
          storeCalls := r.storeCalls }

/-- The module-level Supabase configuration check (run.py lines 25-30):
read `SUPABASE_URL` and `SUPABASE_KEY` from the environment and raise
`ValueError` when either is missing or empty, before any route is served. -/
def supabaseStartupCheck (env : String → Option String) : Except String (String × String) :=
  let url := env ("SUPABASE_URL")
  let key := env ("SUPABASE_KEY")
  if !(pyTruthy url) || !(pyTruthy key) then
    Except.error configErrorMessage
  else
    Except.ok (url.getD "", key.getD "")

/-- Modelled from the spec: `retrieve_chat_history` lives in `app/data.py`,
which is not under `src/`.  Per the spec it "fetches the stored exchange list
for a session; returns empty sequence if none exists (not an error — a
new/unknown session is valid)".  The persistence backend is a total lookup
`db`; an unknown session yields `none` rather than an exception. -/
def retrieve_chat_history (db : String → Option (List Exchange)) (chat_id : String) :
    Except String (Option (List Exchange)) :=
  Except.ok (db chat_id)

/-- Accumulated result of a sequence of send-message operations on one
session: the current (truncated) history, the full chronological log of every
exchange ever appended (a ghost variable, never stored by the code), and the
arguments of every `store_chat_history` call in order. -/
structure SendLog where
  history : List Exchange
  log : List Exchange
  stores : List (String × List Exchange)

/-- Iterate `process_user_message` over a list of user messages, threading the
returned history into the next call exactly as the `/chat` route does via the
persisted list; `ts i` is the wall-clock reading of the `i`-th operation. -/
def runSends (retrieval_chain : String → List Exchange → Except String String)
    (store_chat_history : String → List Exchange → Except String Unit)
    (ts : Nat → String) (chat_id : String) :
    List String → Nat → List Exchange → SendLog
  | [], _, h => { history := h, log := [], stores := [] }
  | msg :: rest, i, h =>
    let r := process_user_message retrieval_chain store_chat_history (ts i) chat_id msg h
    let out := runSends retrieval_chain store_chat_history ts chat_id rest (i + 1) r.chat_history
    { history := out.history
      log := { timestamp := ts i, user_message := msg,
               bot_response := generate_chatbot_response retrieval_chain msg h } :: out.log
      stores := (chat_id, r.chat_history) :: out.stores }

/-! ### The session identifier (`start_new_chat`, run.py lines 90-93)

`uuid.uuid4()` is an external library call: it draws 122 random bits and fixes
the 4-bit version field to `4` and the 2-bit variant field to `10₂`; `str(...)`
renders the 128-bit value as 32 lowercase hex digits in 8-4-4-4-12 groups.
The random source is made explicit as the `Nat` argument `r < 2 ^ 122`. -/

/-- Lowercase hex digit character for a value below 16. -/
def hexChar (n : Nat) : Char := if n < 10 then Char.ofNat (48 + n) else Char.ofNat (87 + n)

/-- Fixed-width big-endian hexadecimal rendering of a natural number. -/
def toHexFixed : Nat → Nat → List Char
  | 0, _ => []
  | w + 1, n => toHexFixed w (n / 16) ++ [hexChar (n % 16)]

/-- Numeric value of a lowercase hex digit character. -/
def hexVal (c : Char) : Nat := if c.toNat ≤ 57 then c.toNat - 48 else c.toNat - 87

/-- Parse a big-endian list of hex digit characters. -/
def fromHex (cs : List Char) : Nat := cs.foldl (fun a c => 16 * a + hexVal c) 0

/-- The 128-bit integer value of `uuid.uuid4()` as a function of its 122
random bits `r`: random bits occupy bit positions 0-61, 64-75 and 80-127;
the variant field (bits 62-63) is `10₂` and the version field (bits 76-79)
is `0100₂`. -/
def uuid4 (r : Nat) : Nat :=
  r % 2 ^ 62 + 2 ^ 63 + 2 ^ 64 * (r / 2 ^ 62 % 2 ^ 12) + 2 ^ 78 + 2 ^ 80 * (r / 2 ^ 74)

/-- Recover the 122 random bits from a UUID value (left inverse of `uuid4`). -/
def uuidRand (v : Nat) : Nat :=
  v % 2 ^ 62 + 2 ^ 62 * (v / 2 ^ 64 % 2 ^ 12) + 2 ^ 74 * (v / 2 ^ 80)

/-- `str(uuid.uuid4())`: 32 hex digits in 8-4-4-4-12 groups separated by
hyphens. -/
def uuidString (v : Nat) : String :=
  let h := toHexFixed 32 v
  String.mk (h.take 8 ++ '-' :: ((h.drop 8).take 4 ++ '-' :: ((h.drop 12).take 4 ++
    '-' :: ((h.drop 16).take 4 ++ '-' :: h.drop 20))))

/-- Strip the hyphens of a UUID string and parse the 32 hex digits back into
the 128-bit value (left inverse of `uuidString`). -/
def uuidDecode (s : String) : Nat := fromHex (s.data.filter (fun c => !(c == '-')))

/-- `start_new_chat` (run.py lines 90-93): return `str(uuid.uuid4())`. -/
def start_new_chat (r : Nat) : String := uuidString (uuid4 r)

/-- A `/start_chat` HTTP response together with the persistence calls made
while handling it. -/
structure StartChatResponse where
  status : Nat
  chat_id : String
  storeCalls : List (String × List Exchange)

/-- The `/start_chat` route (run.py lines 121-124): generate a fresh id and
answer 200; no persistence call is made. -/
def start_chat (r : Nat) : StartChatResponse :=
  { status := 200, chat_id := start_new_chat r, storeCalls := [] }

/-! ### The lazy model singleton (`load_model`, run.py lines 50-65)

`load_model` uses double-checked locking over the globals `model` (initially
`None`) and `model_lock`.  We model an arbitrary interleaving of threads each
executing the function once.  A thread's program counter: `start` (about to do
the unlocked `model is None` check), `waiting` (saw `None`, waiting on
`model_lock`), `locked` (holds the lock, about to re-check), `ready` (holds
the lock and saw `None` again, about to construct), `done m` (returned the
handle `m`).  Handles are numbered by construction order, so two distinct
constructions would yield distinct handles. -/

namespace LoadModel

/-- Program counter of one thread running `load_model`. -/
inductive PC where
  | start
  | waiting
  | locked
  | ready
  | done (ret : Nat)
  deriving DecidableEq, Repr

/-- Shared state: the global `model`, the owner of `model_lock` (if held),
how many constructions have happened, and each thread's program counter. -/
structure MState where
  model : Option Nat
  lockHeld : Option Nat
  constructions : Nat
  threads : Nat → PC

/-- Initial state: `model = None`, lock free, no thread has run yet. -/
def initState : MState :=
  { model := none, lockHeld := none, constructions := 0, threads := fun _ => PC.start }

/-- One atomic step of thread `t` executing `load_model`. -/
inductive Step (t : Nat) : MState → MState → Prop where
  | outerHit (s : MState) (m : Nat) :
      s.threads t = PC.start → s.model = some m →
      Step t s { s with threads := Function.update s.threads t (PC.done m) }
  | outerMiss (s : MState) :
      s.threads t = PC.start → s.model = none →
      Step t s { s with threads := Function.update s.threads t PC.waiting }
  | acquire (s : MState) :
      s.threads t = PC.waiting → s.lockHeld = none →
      Step t s { s with lockHeld := some t,
                        threads := Function.update s.threads t PC.locked }
  | innerHit (s : MState) (m : Nat) :
      s.threads t = PC.locked → s.model = some m →
      Step t s { s with lockHeld := none,
                        threads := Function.update s.threads t (PC.done m) }
  | innerMiss (s : MState) :
      s.threads t = PC.locked → s.model = none →
      Step t s { s with threads := Function.update s.threads t PC.ready }
  | construct (s : MState) :
      s.threads t = PC.ready →
      Step t s { s with model := some s.constructions,
                        constructions := s.constructions + 1,
                        lockHeld := none,
                        threads := Function.update s.threads t (PC.done s.constructions) }

/-- A step of some thread. -/
def StepAny (s s' : MState) : Prop := ∃ t, Step t s s'

/-- Reachability between states along any interleaving. -/
def ReachFrom : MState → MState → Prop := Relation.ReflTransGen StepAny

/-- Reachability from the initial state. -/
def Reachable (s : MState) : Prop := ReachFrom initState s

/-- The inductive invariant of the double-checked-locking protocol. -/
def Inv (s : MState) : Prop :=
  ((s.model = none ∧ s.constructions = 0) ∨ (s.model = some 0 ∧ s.constructions = 1)) ∧
  (∀ t, s.threads t = PC.locked ∨ s.threads t = PC.ready → s.lockHeld = some t) ∧
  (∀ t, s.lockHeld = some t → s.threads t = PC.locked ∨ s.threads t = PC.ready) ∧
  (∀ t m, s.threads t = PC.done m → s.model = some m) ∧
  (∀ t, s.threads t = PC.ready → s.model = none)

/-- Thread 1 has passed the unlocked check and waits on the lock. -/
def cexS1 : MState := { initState with threads := Function.update initState.threads 1 PC.waiting }

/-- Thread 0 has also passed the unlocked check. -/
def cexS2 : MState := { cexS1 with threads := Function.update cexS1.threads 0 PC.waiting }

/-- Thread 0 acquires the lock. -/
def cexS3 : MState :=
  { cexS2 with lockHeld := some 0, threads := Function.update cexS2.threads 0 PC.locked }

/-- Thread 0 re-checks under the lock and still sees `None`. -/
def cexS4 : MState := { cexS3 with threads := Function.update cexS3.threads 0 PC.ready }

/-- Thread 0 constructs the handle and returns: the handle now exists, the
lock is free, and thread 1 is still waiting on the lock. -/
def cexS5 : MState :=
  { cexS4 with model := some cexS4.constructions,
               constructions := cexS4.constructions + 1,
               lockHeld := none,
               threads := Function.update cexS4.threads 0 (PC.done cexS4.constructions) }

/-- Thread 1 now acquires the lock although the handle already exists. -/
def cexS6 : MState :=
  { cexS5 with lockHeld := some 1, threads := Function.update cexS5.threads 1 PC.locked }

end LoadModel

/-! ### Basic lemmas about `pyLastN` and `process_user_message` -/

theorem length_pyLastN (n : Nat) (l : List α) :
    (pyLastN n l).length = min l.length n := by
  simp only [pyLastN, List.length_drop]
  omega

/-- Truncating, appending one element and truncating again is the same as
appending to the untruncated list and truncating once: the evicted prefix can
never re-enter the window. -/
theorem pyLastN_append_last (n : Nat) (l : List α) (x : α) :
    pyLastN n (pyLastN n l ++ [x]) = pyLastN n (l ++ [x]) := by
  unfold pyLastN
  rcases Nat.lt_or_ge l.length n with hlt | hge
  · have h0 : l.length - n = 0 := by omega
    rw [h0, List.drop_zero]
  · rcases Nat.eq_zero_or_pos n with hn | hn
    · subst hn
      simp [List.drop_length]
    · have hlen : (l.drop (l.length - n)).length = n := by
        rw [List.length_drop]; omega
      have e1 : (l.drop (l.length - n) ++ [x]).length - n = 1 := by
        simp [hlen]
      have e2 : (l ++ [x]).length - n = (l.length - n) + 1 := by
        simp only [List.length_append, List.length_cons, List.length_nil]
        omega
      rw [e1, e2]
      rw [List.drop_append_of_le_length (by omega : l.length - n + 1 ≤ l.length)]
      rw [List.drop_append_of_le_length (by omega : 1 ≤ (l.drop (l.length - n)).length)]
      rw [List.drop_drop]

/-- Definitional reading of the updated history of `process_user_message`. -/
theorem process_chat_history_pyLastN
    (retrieval_chain : String → List Exchange → Except String String)
    (store_chat_history : String → List Exchange → Except String Unit)
    (now chat_id user_message : String) (chat_history : List Exchange) :
    (process_user_message retrieval_chain store_chat_history now chat_id user_message
        chat_history).chat_history =
      pyLastN 50 (chat_history ++
        [⟨now, user_message, generate_chatbot_response retrieval_chain user_message chat_history⟩]) :=
  rfl

/-- The updated history computed by `process_user_message` is the input
history with its over-budget prefix dropped and the new exchange at the end. -/
theorem process_chat_history_eq
    (retrieval_chain : String → List Exchange → Except String String)
    (store_chat_history : String → List Exchange → Except String Unit)
    (now chat_id user_message : String) (chat_history : List Exchange) :
    (process_user_message retrieval_chain store_chat_history now chat_id user_message
        chat_history).chat_history =
      chat_history.drop ((chat_history.length + 1) - 50) ++
        [{ timestamp := now, user_message := user_message,
           bot_response := generate_chatbot_response retrieval_chain user_message chat_history }] := by
  show pyLastN 50 _ = _
  unfold pyLastN
  rw [List.drop_append_of_le_length (by simp)]
  simp

/-! ### Lemmas about the UUID rendering -/

theorem hexVal_hexChar (d : Nat) (hd : d < 16) : hexVal (hexChar d) = d := by
  interval_cases d <;> decide

theorem hexChar_ne_dash (d : Nat) (hd : d < 16) : (hexChar d == '-') = false := by
  interval_cases d <;> decide

theorem foldl_toHexFixed (w : Nat) :
    ∀ n a : Nat, List.foldl (fun x c => 16 * x + hexVal c) a (toHexFixed w n)
      = a * 16 ^ w + n % 16 ^ w := by
  induction w with
  | zero => intro n a; simp [toHexFixed, Nat.mod_one]
  | succ w ih =>
    intro n a
    rw [toHexFixed, List.foldl_append]
    simp only [List.foldl_cons, List.foldl_nil]
    rw [ih, hexVal_hexChar (n % 16) (Nat.mod_lt _ (by norm_num))]
    have hm : n % 16 ^ (w + 1) = n % 16 + 16 * (n / 16 % 16 ^ w) := by
      rw [pow_succ, mul_comm (16 ^ w) 16, Nat.mod_mul]
    rw [hm, pow_succ]
    ring

theorem fromHex_toHexFixed (w n : Nat) (h : n < 16 ^ w) : fromHex (toHexFixed w n) = n := by
  unfold fromHex
  rw [foldl_toHexFixed]
  simp [Nat.mod_eq_of_lt h]

theorem mem_toHexFixed_ne_dash (w : Nat) :
    ∀ (n : Nat) (c : Char), c ∈ toHexFixed w n → (!(c == '-')) = true := by
  induction w with
  | zero => intro n c hc; simp [toHexFixed] at hc
  | succ w ih =>
    intro n c hc
    rw [toHexFixed] at hc
    rcases List.mem_append.1 hc with h | h
    · exact ih _ _ h
    · simp only [List.mem_singleton] at h
      subst h
      simp [hexChar_ne_dash (n % 16) (Nat.mod_lt _ (by norm_num))]

theorem uuidDecode_uuidString (v : Nat) (hv : v < 2 ^ 128) :
    uuidDecode (uuidString v) = v := by
  unfold uuidDecode uuidString
  show fromHex (List.filter _ _) = v
  have hfil : ∀ l : List Char, l ⊆ toHexFixed 32 v →
      l.filter (fun c => !(c == '-')) = l := by
    intro l hl
    exact List.filter_eq_self.mpr (fun c hc => mem_toHexFixed_ne_dash 32 v c (hl hc))
  have hdash : ∀ l : List Char,
      List.filter (fun c => !(c == '-')) ('-' :: l) = List.filter (fun c => !(c == '-')) l := by
    intro l
    rw [List.filter_cons]
    simp
  rw [List.filter_append, hdash, List.filter_append, hdash, List.filter_append, hdash,
      List.filter_append, hdash]
  rw [hfil _ (List.take_subset 8 _),
      hfil _ (List.Subset.trans (List.take_subset 4 _) (List.drop_subset 8 _)),
      hfil _ (List.Subset.trans (List.take_subset 4 _) (List.drop_subset 12 _)),
      hfil _ (List.Subset.trans (List.take_subset 4 _) (List.drop_subset 16 _)),
      hfil _ (List.drop_subset 20 _)]
  have h20 : ((toHexFixed 32 v).drop 16).take 4 ++ (toHexFixed 32 v).drop 20
      = (toHexFixed 32 v).drop 16 := by
    have h := List.take_append_drop 4 ((toHexFixed 32 v).drop 16)
    rwa [List.drop_drop] at h
  have h16 : ((toHexFixed 32 v).drop 12).take 4 ++ (toHexFixed 32 v).drop 16
      = (toHexFixed 32 v).drop 12 := by
    have h := List.take_append_drop 4 ((toHexFixed 32 v).drop 12)
    rwa [List.drop_drop] at h
  have h12 : ((toHexFixed 32 v).drop 8).take 4 ++ (toHexFixed 32 v).drop 12
      = (toHexFixed 32 v).drop 8 := by
    have h := List.take_append_drop 4 ((toHexFixed 32 v).drop 8)
    rwa [List.drop_drop] at h
  rw [h20, h16, h12, List.take_append_drop]
  exact fromHex_toHexFixed 32 v (by norm_num at hv ⊢; omega)

theorem uuid4_lt (r : Nat) (hr : r < 2 ^ 122) : uuid4 r < 2 ^ 128 := by
  unfold uuid4
  norm_num at hr ⊢
  omega

theorem uuid_roundtrip_arith (a b c : Nat) (ha : a < 2 ^ 62) (hb : b < 2 ^ 12) (hc : c < 2 ^ 48) :
    (a + 2 ^ 63 + 2 ^ 64 * b + 2 ^ 78 + 2 ^ 80 * c) % 2 ^ 62
      + 2 ^ 62 * ((a + 2 ^ 63 + 2 ^ 64 * b + 2 ^ 78 + 2 ^ 80 * c) / 2 ^ 64 % 2 ^ 12)
      + 2 ^ 74 * ((a + 2 ^ 63 + 2 ^ 64 * b + 2 ^ 78 + 2 ^ 80 * c) / 2 ^ 80)
      = a + 2 ^ 62 * b + 2 ^ 74 * c := by
  norm_num at *
  omega

theorem uuidRand_uuid4 (r : Nat) (hr : r < 2 ^ 122) : uuidRand (uuid4 r) = r := by
  unfold uuidRand uuid4
  rw [uuid_roundtrip_arith (r % 2 ^ 62) (r / 2 ^ 62 % 2 ^ 12) (r / 2 ^ 74)
        (Nat.mod_lt _ (by norm_num)) (Nat.mod_lt _ (by norm_num))
        (by norm_num at hr ⊢; omega)]
  norm_num at hr ⊢
  omega

/-! ### Lemmas about the `load_model` state machine -/

namespace LoadModel

theorem inv_initState : Inv initState := by
  refine ⟨Or.inl ⟨rfl, rfl⟩, ?_, ?_, ?_, ?_⟩ <;> intros <;> simp_all [initState, Inv]

theorem inv_step (t : Nat) (s s' : MState) (h : Step t s s') (hi : Inv s) : Inv s' := by
  obtain ⟨h1, h2, h3, h4, h5⟩ := hi
  cases h with
  | outerHit m hpc hm =>
    refine ⟨h1, ?_, ?_, ?_, ?_⟩ <;> dsimp only
    · intro u hu
      rcases eq_or_ne u t with rfl | hne
      · rw [Function.update_same] at hu; simp at hu
      · rw [Function.update_noteq hne] at hu; exact h2 u hu
    · intro u hlu
      have hth := h3 u hlu
      rcases eq_or_ne u t with rfl | hne
      · rw [hpc] at hth; simp at hth
      · show Function.update s.threads t (PC.done m) u = _ ∨ _
        rw [Function.update_noteq hne]; exact hth
    · intro u k hk
      rcases eq_or_ne u t with rfl | hne
      · rw [Function.update_same] at hk
        injection hk with he
        rw [← he]; exact hm
      · rw [Function.update_noteq hne] at hk; exact h4 u k hk
    · intro u hu
      rcases eq_or_ne u t with rfl | hne
      · rw [Function.update_same] at hu; simp at hu
      · rw [Function.update_noteq hne] at hu; exact h5 u hu
  | outerMiss hpc hm =>
    refine ⟨h1, ?_, ?_, ?_, ?_⟩ <;> dsimp only
    · intro u hu
      rcases eq_or_ne u t with rfl | hne
      · rw [Function.update_same] at hu; simp at hu
      · rw [Function.update_noteq hne] at hu; exact h2 u hu
    · intro u hlu
      have hth := h3 u hlu
      rcases eq_or_ne u t with rfl | hne
      · rw [hpc] at hth; simp at hth
      · show Function.update s.threads t PC.waiting u = _ ∨ _
        rw [Function.update_noteq hne]; exact hth
    · intro u k hk
      rcases eq_or_ne u t with rfl | hne
      · rw [Function.update_same] at hk; simp at hk
      · rw [Function.update_noteq hne] at hk; exact h4 u k hk
    · intro u hu
      rcases eq_or_ne u t with rfl | hne
      · rw [Function.update_same] at hu; simp at hu
      · rw [Function.update_noteq hne] at hu; exact h5 u hu
  | acquire hpc hl =>
    refine ⟨h1, ?_, ?_, ?_, ?_⟩ <;> dsimp only
    · intro u hu
      rcases eq_or_ne u t with rfl | hne
      · rfl
      · rw [Function.update_noteq hne] at hu
        have := h2 u hu
        rw [hl] at this
        exact Option.noConfusion this
    · intro u hlu
      have he : t = u := by
        have : (some t : Option Nat) = some u := hlu
        injection this
      subst he
      show Function.update s.threads t PC.locked t = _ ∨ _
      rw [Function.update_same]; exact Or.inl rfl
    · intro u k hk
      rcases eq_or_ne u t with rfl | hne
      · rw [Function.update_same] at hk; simp at hk
      · rw [Function.update_noteq hne] at hk; exact h4 u k hk
    · intro u hu
      rcases eq_or_ne u t with rfl | hne
      · rw [Function.update_same] at hu; simp at hu
      · rw [Function.update_noteq hne] at hu; exact h5 u hu
  | innerHit m hpc hm =>
    refine ⟨h1, ?_, ?_, ?_, ?_⟩ <;> dsimp only
    · intro u hu
      rcases eq_or_ne u t with rfl | hne
      · rw [Function.update_same] at hu; simp at hu
      · rw [Function.update_noteq hne] at hu
        have h2u := h2 u hu
        have h2t := h2 t (Or.inl hpc)
        rw [h2t] at h2u
        injection h2u with he
        exact absurd he.symm hne
    · intro u hlu
      exact Option.noConfusion hlu
    · intro u k hk
      rcases eq_or_ne u t with rfl | hne
      · rw [Function.update_same] at hk
        injection hk with he
        rw [← he]; exact hm
      · rw [Function.update_noteq hne] at hk; exact h4 u k hk
    · intro u hu
      rcases eq_or_ne u t with rfl | hne
      · rw [Function.update_same] at hu; simp at hu
      · rw [Function.update_noteq hne] at hu; exact h5 u hu
  | innerMiss hpc hm =>
    refine ⟨h1, ?_, ?_, ?_, ?_⟩ <;> dsimp only
    · intro u hu
      rcases eq_or_ne u t with rfl | hne
      · exact h2 _ (Or.inl hpc)
      · rw [Function.update_noteq hne] at hu; exact h2 u hu
    · intro u hlu
      have hth := h3 u hlu
      rcases eq_or_ne u t with rfl | hne
      · rw [Function.update_same]; exact Or.inr rfl
      · rw [Function.update_noteq hne]; exact hth
    · intro u k hk
      rcases eq_or_ne u t with rfl | hne
      · rw [Function.update_same] at hk; simp at hk
      · rw [Function.update_noteq hne] at hk; exact h4 u k hk
    · intro u hu
      rcases eq_or_ne u t with rfl | hne
      · exact hm
      · rw [Function.update_noteq hne] at hu; exact h5 u hu
  | construct hpc =>
    have hm : s.model = none := h5 t hpc
    have hc0 : s.constructions = 0 := by
      rcases h1 with ⟨_, hc⟩ | ⟨hm0, _⟩
      · exact hc
      · rw [hm] at hm0; exact Option.noConfusion hm0
    refine ⟨?_, ?_, ?_, ?_, ?_⟩ <;> dsimp only
    · exact Or.inr ⟨by rw [hc0], by rw [hc0]⟩
    · intro u hu
      rcases eq_or_ne u t with rfl | hne
      · rw [Function.update_same] at hu; simp at hu
      · rw [Function.update_noteq hne] at hu
        have h2u := h2 u hu
        have h2t := h2 t (Or.inr hpc)
        rw [h2t] at h2u
        injection h2u with he
        exact absurd he.symm hne
    · intro u hlu
      exact Option.noConfusion hlu
    · intro u k hk
      rcases eq_or_ne u t with rfl | hne
      · rw [Function.update_same] at hk
        injection hk with he
        rw [← he]
      · rw [Function.update_noteq hne] at hk
        have := h4 u k hk
        rw [hm] at this
        exact Option.noConfusion this
    · intro u hu
      rcases eq_or_ne u t with rfl | hne
      · rw [Function.update_same] at hu; simp at hu
      · rw [Function.update_noteq hne] at hu
        have h2u := h2 u (Or.inr hu)
        have h2t := h2 t (Or.inr hpc)
        rw [h2t] at h2u
        injection h2u with he
        exact absurd he.symm hne

theorem inv_reachable (s : MState) (h : Reachable s) : Inv s := by
  unfold Reachable ReachFrom at h
  induction h with
  | refl => exact inv_initState
  | tail _ h2 ih =>
    obtain ⟨t, hstep⟩ := h2
    exact inv_step t _ _ hstep ih

/-- After a state whose handle exists, a thread that has not yet performed its
first (unlocked) check never holds the lock. -/
theorem no_late_lock (s s' : MState) (t : Nat) (hreach : Reachable s)
    (hm : s.model ≠ none) (hstart : s.threads t = PC.start)
    (hext : ReachFrom s s') : s'.lockHeld ≠ some t := by
  have key : ∀ s'', ReachFrom s s'' →
      s''.model ≠ none ∧ (s''.threads t = PC.start ∨ ∃ k, s''.threads t = PC.done k) ∧
        Reachable s'' := by
    intro s'' hr
    induction hr with
    | refl => exact ⟨hm, Or.inl hstart, hreach⟩
    | tail h1 h2 ih =>
      obtain ⟨hm1, hpc1, hre1⟩ := ih
      obtain ⟨u, hstep⟩ := h2
      refine ⟨?_, ?_, Relation.ReflTransGen.tail hre1 ⟨u, hstep⟩⟩
      · cases hstep with
        | outerHit m hpc hmo => exact hm1
        | outerMiss hpc hmo => exact hm1
        | acquire hpc hl => exact hm1
        | innerHit m hpc hmo => exact hm1
        | innerMiss hpc hmo => exact hm1
        | construct hpc => simp
      · rcases eq_or_ne u t with rfl | hne
        · rcases hpc1 with hpc1 | ⟨k, hpc1⟩
          · cases hstep with
            | outerHit m hpc hmo =>
                exact Or.inr ⟨m, by simp⟩
            | outerMiss hpc hmo => exact absurd hmo hm1
            | acquire hpc hl => rw [hpc1] at hpc; simp at hpc
            | innerHit m hpc hmo => rw [hpc1] at hpc; simp at hpc
            | innerMiss hpc hmo => rw [hpc1] at hpc; simp at hpc
            | construct hpc => rw [hpc1] at hpc; simp at hpc
          · cases hstep with
            | outerHit m hpc hmo => rw [hpc1] at hpc; simp at hpc
            | outerMiss hpc hmo => rw [hpc1] at hpc; simp at hpc
            | acquire hpc hl => rw [hpc1] at hpc; simp at hpc
            | innerHit m hpc hmo => rw [hpc1] at hpc; simp at hpc
            | innerMiss hpc hmo => rw [hpc1] at hpc; simp at hpc
            | construct hpc => rw [hpc1] at hpc; simp at hpc
        · cases hstep with
          | outerHit m hpc hmo =>
              dsimp only
              rw [Function.update_noteq (Ne.symm hne)]; exact hpc1
          | outerMiss hpc hmo =>
              dsimp only
              rw [Function.update_noteq (Ne.symm hne)]; exact hpc1
          | acquire hpc hl =>
              dsimp only
              rw [Function.update_noteq (Ne.symm hne)]; exact hpc1
          | innerHit m hpc hmo =>
              dsimp only
              rw [Function.update_noteq (Ne.symm hne)]; exact hpc1
          | innerMiss hpc hmo =>
              dsimp only
              rw [Function.update_noteq (Ne.symm hne)]; exact hpc1
          | construct hpc =>
              dsimp only
              rw [Function.update_noteq (Ne.symm hne)]; exact hpc1
  obtain ⟨hm', hpc', hre'⟩ := key s' hext
  have hinv := inv_reachable s' hre'
  intro hlock
  have hth := hinv.2.2.1 t hlock
  rcases hpc' with h | ⟨k, h⟩ <;> rcases hth with h2 | h2 <;> rw [h] at h2 <;> simp at h2

theorem reachable_cexS5 : Reachable cexS5 := by
  have s1 : StepAny initState cexS1 := ⟨1, Step.outerMiss _ rfl rfl⟩
  have s2 : StepAny cexS1 cexS2 := ⟨0, Step.outerMiss _ rfl rfl⟩
  have s3 : StepAny cexS2 cexS3 := ⟨0, Step.acquire _ rfl rfl⟩
  have s4 : StepAny cexS3 cexS4 := ⟨0, Step.innerMiss _ rfl rfl⟩
  have s5 : StepAny cexS4 cexS5 := ⟨0, Step.construct _ rfl⟩
  exact Relation.ReflTransGen.tail (Relation.ReflTransGen.tail (Relation.ReflTransGen.tail
    (Relation.ReflTransGen.tail (Relation.ReflTransGen.tail Relation.ReflTransGen.refl s1)
      s2) s3) s4) s5

end LoadModel

/-! ### Lemmas about iterated send-message operations -/

theorem getLast?_cons_ne (a : α) (l : List α) (h : l ≠ []) :
    (a :: l).getLast? = l.getLast? := by
  cases l with
  | nil => exact absurd rfl h
  | cons b t => exact List.getLast?_cons_cons ..

theorem runSends_spec (retrieval_chain : String → List Exchange → Except String String)
    (store_chat_history : String → List Exchange → Except String Unit)
    (ts : Nat → String) (chat_id : String) (msgs : List String) :
    ∀ (i : Nat) (L h : List Exchange), h = pyLastN 50 L →
      (runSends retrieval_chain store_chat_history ts chat_id msgs i h).history
          = pyLastN 50 (L ++ (runSends retrieval_chain store_chat_history ts chat_id msgs i h).log) ∧
      (runSends retrieval_chain store_chat_history ts chat_id msgs i h).log.length = msgs.length := by
  induction msgs with
  | nil =>
    intro i L h hh
    constructor
    · simp [runSends, hh]
    · simp [runSends]
  | cons m rest ih =>
    intro i L h hh
    subst hh
    simp only [runSends, process_chat_history_pyLastN, pyLastN_append_last]
    obtain ⟨ih1, ih2⟩ := ih (i + 1)
      (L ++ [⟨ts i, m, generate_chatbot_response retrieval_chain m (pyLastN 50 L)⟩]) _ rfl
    refine ⟨?_, ?_⟩
    · rw [ih1, List.append_assoc]
      rfl
    · rw [List.length_cons, ih2, List.length_cons]

theorem runSends_stores_length (retrieval_chain : String → List Exchange → Except String String)
    (store_chat_history : String → List Exchange → Except String Unit)
    (ts : Nat → String) (chat_id : String) (msgs : List String) :
    ∀ i h, (runSends retrieval_chain store_chat_history ts chat_id msgs i h).stores.length
        = msgs.length := by
  induction msgs with
  | nil => intro i h; rfl
  | cons m rest ih =>
    intro i h
    simp only [runSends]
    rw [List.length_cons, ih, List.length_cons]

theorem runSends_stores_last (retrieval_chain : String → List Exchange → Except String String)
    (store_chat_history : String → List Exchange → Except String Unit)
    (ts : Nat → String) (chat_id : String) (msgs : List String) (hne : msgs ≠ []) :
    ∀ i h, (runSends retrieval_chain store_chat_history ts chat_id msgs i h).stores.getLast?
        = some (chat_id, (runSends retrieval_chain store_chat_history ts chat_id msgs i h).history) := by
  induction msgs with
  | nil => exact absurd rfl hne
  | cons m rest ih =>
    intro i h
    rcases eq_or_ne rest [] with rfl | hrest
    · simp [runSends]
    · have hlast := ih hrest (i + 1)
        ((process_user_message retrieval_chain store_chat_history (ts i) chat_id m h).chat_history)
      have hnil : (runSends retrieval_chain store_chat_history ts chat_id rest (i + 1)
          (process_user_message retrieval_chain store_chat_history (ts i) chat_id m h).chat_history).stores ≠ [] := by
        intro hn
        have hl := runSends_stores_length retrieval_chain store_chat_history ts chat_id rest (i + 1)
          ((process_user_message retrieval_chain store_chat_history (ts i) chat_id m h).chat_history)
        rw [hn] at hl
        exact hrest (List.eq_nil_of_length_eq_zero hl.symm)
      simp only [runSends]
      rw [getLast?_cons_ne _ _ hnil, hlast]

/-! ### Claim theorems -/

/-- C1: for every session and every non-empty sequence of `N` send-message
operations starting from an empty history, the history returned by (and passed
to the persistence write of) the `N`-th operation is exactly the 50 most
recent of the `N` chronological exchanges: its length is `min N 50`, it is a
suffix of the full chronological log (so insertion order is preserved and the
oldest entries are the ones evicted), and the final `store_chat_history` call
received exactly this list. -/
theorem send_history_bounded
    (retrieval_chain : String → List Exchange → Except String String)
    (store_chat_history : String → List Exchange → Except String Unit)
    (ts : Nat → String) (chat_id : String) (msgs : List String) (hne : msgs ≠ []) :
    (runSends retrieval_chain store_chat_history ts chat_id msgs 0 []).log.length
        = msgs.length ∧
    (runSends retrieval_chain store_chat_history ts chat_id msgs 0 []).history
        = pyLastN 50 (runSends retrieval_chain store_chat_history ts chat_id msgs 0 []).log ∧
    (runSends retrieval_chain store_chat_history ts chat_id msgs 0 []).history.length
        = min msgs.length 50 ∧
    (runSends retrieval_chain store_chat_history ts chat_id msgs 0 []).history
        <:+ (runSends retrieval_chain store_chat_history ts chat_id msgs 0 []).log ∧
    (runSends retrieval_chain store_chat_history ts chat_id msgs 0 []).stores.getLast?
        = some (chat_id,
            (runSends retrieval_chain store_chat_history ts chat_id msgs 0 []).history) := by
  obtain ⟨h1, h2⟩ := runSends_spec retrieval_chain store_chat_history ts chat_id msgs 0 [] [] rfl
  rw [List.nil_append] at h1
  refine ⟨h2, h1, ?_, ?_,
    runSends_stores_last retrieval_chain store_chat_history ts chat_id msgs hne 0 []⟩
  · rw [h1, length_pyLastN, h2]
  · rw [h1]
    unfold pyLastN
    exact List.drop_suffix _ _

/-- Witness for C1 at a concrete two-message run. -/
theorem send_history_bounded_witness :
    ([("m1"), ("m2")] : List String) ≠ [] ∧
    ((runSends (fun _ _ => Except.ok ("ok")) (fun _ _ => Except.ok ()) (fun _ => "t") ("c")
        [("m1"), ("m2")] 0 []).log.length = ([("m1"), ("m2")] : List String).length ∧
     (runSends (fun _ _ => Except.ok ("ok")) (fun _ _ => Except.ok ()) (fun _ => "t") ("c")
        [("m1"), ("m2")] 0 []).history
        = pyLastN 50 (runSends (fun _ _ => Except.ok ("ok")) (fun _ _ => Except.ok ())
            (fun _ => "t") ("c") [("m1"), ("m2")] 0 []).log ∧
     (runSends (fun _ _ => Except.ok ("ok")) (fun _ _ => Except.ok ()) (fun _ => "t") ("c")
        [("m1"), ("m2")] 0 []).history.length = min ([("m1"), ("m2")] : List String).length 50 ∧
     (runSends (fun _ _ => Except.ok ("ok")) (fun _ _ => Except.ok ()) (fun _ => "t") ("c")
        [("m1"), ("m2")] 0 []).history
        <:+ (runSends (fun _ _ => Except.ok ("ok")) (fun _ _ => Except.ok ()) (fun _ => "t")
            ("c") [("m1"), ("m2")] 0 []).log ∧
     (runSends (fun _ _ => Except.ok ("ok")) (fun _ _ => Except.ok ()) (fun _ => "t") ("c")
        [("m1"), ("m2")] 0 []).stores.getLast?
        = some (("c"), (runSends (fun _ _ => Except.ok ("ok")) (fun _ _ => Except.ok ())
            (fun _ => "t") ("c") [("m1"), ("m2")] 0 []).history)) :=
  ⟨by decide, send_history_bounded _ _ _ _ _ (by decide)⟩

/-- C2 (counterexample to the claim as stated): there is a reachable state in
which the handle already exists (`model = some 0`, lock free) while thread 1 —
whose call began before construction finished and is parked at the lock —
afterwards still acquires the lock.  So "no call acquires the lock once the
handle exists" fails for calls already past their unlocked check. -/
theorem load_model_lock_after_handle_exists :
    LoadModel.Reachable LoadModel.cexS5 ∧
    LoadModel.cexS5.model = some 0 ∧
    LoadModel.cexS5.threads 1 = LoadModel.PC.waiting ∧
    LoadModel.cexS5.lockHeld = none ∧
    LoadModel.StepAny LoadModel.cexS5 LoadModel.cexS6 ∧
    LoadModel.cexS6.lockHeld = some 1 :=
  ⟨LoadModel.reachable_cexS5, rfl, rfl, rfl, ⟨1, LoadModel.Step.acquire _ rfl rfl⟩, rfl⟩

/-- C2 (amended): in every reachable state the handle has been constructed at
most once, any two completed calls returned the same instance, and a call
that performs its first (unlocked) presence check after the handle exists
never acquires the lock in any later state. -/
theorem load_model_dcl_amended (s s' : LoadModel.MState) (t u v mu mv : Nat)
    (hreach : LoadModel.Reachable s)
    (hu : s.threads u = LoadModel.PC.done mu)
    (hv : s.threads v = LoadModel.PC.done mv)
    (hmodel : s.model ≠ none)
    (hstart : s.threads t = LoadModel.PC.start)
    (hext : LoadModel.ReachFrom s s') :
    s.constructions ≤ 1 ∧ mu = mv ∧ s'.lockHeld ≠ some t := by
  have hinv := LoadModel.inv_reachable s hreach
  refine ⟨?_, ?_, LoadModel.no_late_lock s s' t hreach hmodel hstart hext⟩
  · rcases hinv.1 with ⟨_, hc⟩ | ⟨_, hc⟩ <;> omega
  · have hx := hinv.2.2.2.1 u mu hu
    have hy := hinv.2.2.2.1 v mv hv
    rw [hx] at hy
    exact Option.some.inj hy

/-- Witness for C2 (amended) at the concrete post-construction state. -/
theorem load_model_dcl_amended_witness :
    LoadModel.cexS5.constructions ≤ 1 ∧ (0 : Nat) = 0 ∧
    LoadModel.cexS5.lockHeld ≠ some 2 :=
  load_model_dcl_amended LoadModel.cexS5 LoadModel.cexS5 2 0 0 0 0
    LoadModel.reachable_cexS5 rfl rfl (by decide) rfl Relation.ReflTransGen.refl

/-- C3: when the retrieval chain raises, `process_user_message` still returns
normally, its answer is the fixed apology string, the exchange appended at the
end of the history carries that apology as its `bot_response`, and the updated
history (apology included) is exactly what is passed to the persistence
write. -/
theorem pipeline_failure_apology_stored
    (retrieval_chain : String → List Exchange → Except String String)
    (store_chat_history : String → List Exchange → Except String Unit)
    (now chat_id user_message : String) (chat_history : List Exchange) (e : String)
    (hfail : retrieval_chain user_message chat_history = Except.error e) :
    (process_user_message retrieval_chain store_chat_history now chat_id user_message
        chat_history).bot_response = apologyMessage ∧
    (process_user_message retrieval_chain store_chat_history now chat_id user_message
        chat_history).chat_history.getLast? = some ⟨now, user_message, apologyMessage⟩ ∧
    (process_user_message retrieval_chain store_chat_history now chat_id user_message
        chat_history).storeCalls
      = [(chat_id, (process_user_message retrieval_chain store_chat_history now chat_id
          user_message chat_history).chat_history)] := by
  have hb : generate_chatbot_response retrieval_chain user_message chat_history
      = apologyMessage := by
    unfold generate_chatbot_response
    rw [hfail]
  refine ⟨hb, ?_, rfl⟩
  rw [process_chat_history_eq, hb]
  exact List.getLast?_concat _

/-- Witness for C3 with a chain that always raises. -/
theorem pipeline_failure_apology_stored_witness :
    (process_user_message (fun _ _ => Except.error ("boom")) (fun _ _ => Except.ok ())
        ("t") ("c") ("m") []).bot_response = apologyMessage ∧
    (process_user_message (fun _ _ => Except.error ("boom")) (fun _ _ => Except.ok ())
        ("t") ("c") ("m") []).chat_history.getLast? = some ⟨("t"), ("m"), apologyMessage⟩ ∧
    (process_user_message (fun _ _ => Except.error ("boom")) (fun _ _ => Except.ok ())
        ("t") ("c") ("m") []).storeCalls
      = [(("c"), (process_user_message (fun _ _ => Except.error ("boom"))
          (fun _ _ => Except.ok ()) ("t") ("c") ("m") []).chat_history)] :=
  pipeline_failure_apology_stored _ _ _ _ _ _ _ rfl

/-- C4: when the persistence write raises, the exception is swallowed and the
`/chat` response is 200 with a body (answer and updated truncated history) and
store-call list identical to those of a run whose write succeeds. -/
theorem store_failure_still_success
    (retrieve : String → Except String (Option (List Exchange)))
    (retrieval_chain : String → List Exchange → Except String String)
    (failing_store good_store : String → List Exchange → Except String Unit)
    (now : String) (chat_id user_message : Option String)
    (stored : Option (List Exchange)) (err : String)
    (hret : retrieve (chat_id.getD "") = Except.ok stored)
    (hcid : pyTruthy chat_id = true) (hmsg : pyTruthy user_message = true)
    (hfail : ∀ c l, failing_store c l = Except.error err)
    (hok : ∀ c l, good_store c l = Except.ok ()) :
    (chat retrieve retrieval_chain failing_store now chat_id user_message).status = 200 ∧
    (chat retrieve retrieval_chain failing_store now chat_id user_message).body
        = (chat retrieve retrieval_chain good_store now chat_id user_message).body ∧
    (chat retrieve retrieval_chain failing_store now chat_id user_message).storeCalls
        = (chat retrieve retrieval_chain good_store now chat_id user_message).storeCalls := by
  refine ⟨?_, ?_, ?_⟩ <;>
    simp [chat, hcid, hmsg, hret, process_user_message]

/-- Witness for C4 with a store that always raises. -/
theorem store_failure_still_success_witness :
    (chat (fun _ => Except.ok (some [])) (fun _ _ => Except.ok ("a"))
        (fun _ _ => Except.error ("db")) ("t") (some ("c")) (some ("m"))).status = 200 ∧
    (chat (fun _ => Except.ok (some [])) (fun _ _ => Except.ok ("a"))
        (fun _ _ => Except.error ("db")) ("t") (some ("c")) (some ("m"))).body
      = (chat (fun _ => Except.ok (some [])) (fun _ _ => Except.ok ("a"))
          (fun _ _ => Except.ok ()) ("t") (some ("c")) (some ("m"))).body ∧
    (chat (fun _ => Except.ok (some [])) (fun _ _ => Except.ok ("a"))
        (fun _ _ => Except.error ("db")) ("t") (some ("c")) (some ("m"))).storeCalls
      = (chat (fun _ => Except.ok (some [])) (fun _ _ => Except.ok ("a"))
          (fun _ _ => Except.ok ()) ("t") (some ("c")) (some ("m"))).storeCalls :=
  store_failure_still_success _ _ _ _ _ _ _ _ _ rfl rfl rfl
    (fun _ _ => rfl) (fun _ _ => rfl)

/-- C5: a `/chat` request with a missing or empty `chat_id` or `user_message`
is answered 400 with the fixed validation-error body, invokes no retrieval
pipeline and attempts no persistence write, whatever the collaborators do. -/
theorem chat_validation_400
    (retrieve : String → Except String (Option (List Exchange)))
    (retrieval_chain : String → List Exchange → Except String String)
    (store_chat_history : String → List Exchange → Except String Unit)
    (now : String) (chat_id user_message : Option String)
    (hinv : pyTruthy chat_id = false ∨ pyTruthy user_message = false) :
    chat retrieve retrieval_chain store_chat_history now chat_id user_message =
      { status := 400, body := ChatBody.err validationErrorMessage,
        pipelineCalls := [], storeCalls := [] } := by
  unfold chat
  rcases hinv with h | h <;> rw [h] <;> simp

/-- Witness for C5 with a missing `chat_id`. -/
theorem chat_validation_400_witness :
    chat (fun _ => Except.ok none) (fun _ _ => Except.ok ("a")) (fun _ _ => Except.ok ())
        ("t") none (some ("m")) =
      { status := 400, body := ChatBody.err validationErrorMessage,
        pipelineCalls := [], storeCalls := [] } :=
  chat_validation_400 _ _ _ _ _ _ (Or.inl rfl)

/-- C6: for a session id with no stored history, `retrieve_chat_history`
yields an empty result rather than an error, and the send-message operation
proceeds as a valid new session: 200 response, the pipeline is invoked with
the empty history, and the returned history is the single new exchange. -/
theorem unknown_session_empty_history
    (db : String → Option (List Exchange))
    (retrieval_chain : String → List Exchange → Except String String)
    (store_chat_history : String → List Exchange → Except String Unit)
    (now : String) (chat_id user_message : Option String)
    (hnone : db (chat_id.getD "") = none)
    (hcid : pyTruthy chat_id = true) (hmsg : pyTruthy user_message = true) :
    retrieve_chat_history db (chat_id.getD "") = Except.ok none ∧
    (chat (retrieve_chat_history db) retrieval_chain store_chat_history now chat_id
        user_message).status = 200 ∧
    (chat (retrieve_chat_history db) retrieval_chain store_chat_history now chat_id
        user_message).body
      = ChatBody.ok (generate_chatbot_response retrieval_chain (user_message.getD "") [])
          [⟨now, user_message.getD "",
            generate_chatbot_response retrieval_chain (user_message.getD "") []⟩] ∧
    (chat (retrieve_chat_history db) retrieval_chain store_chat_history now chat_id
        user_message).pipelineCalls = [(user_message.getD "", [])] := by
  have hr : retrieve_chat_history db (chat_id.getD "") = Except.ok none := by
    unfold retrieve_chat_history
    rw [hnone]
  refine ⟨hr, ?_, ?_, ?_⟩ <;>
    simp [chat, hcid, hmsg, hr, process_user_message, pyLastN]

/-- Witness for C6 with an empty persistence backend. -/
theorem unknown_session_empty_history_witness :
    retrieve_chat_history (fun _ => none) ((some ("c")).getD "") = Except.ok none ∧
    (chat (retrieve_chat_history (fun _ => none)) (fun _ _ => Except.ok ("a"))
        (fun _ _ => Except.ok ()) ("t") (some ("c")) (some ("m"))).status = 200 ∧
    (chat (retrieve_chat_history (fun _ => none)) (fun _ _ => Except.ok ("a"))
        (fun _ _ => Except.ok ()) ("t") (some ("c")) (some ("m"))).body
      = ChatBody.ok (generate_chatbot_response (fun _ _ => Except.ok ("a"))
            ((some ("m")).getD "") [])
          [⟨("t"), (some ("m")).getD "",
            generate_chatbot_response (fun _ _ => Except.ok ("a")) ((some ("m")).getD "") []⟩] ∧
    (chat (retrieve_chat_history (fun _ => none)) (fun _ _ => Except.ok ("a"))
        (fun _ _ => Except.ok ()) ("t") (some ("c")) (some ("m"))).pipelineCalls
      = [((some ("m")).getD "", [])] :=
  unknown_session_empty_history _ _ _ _ _ _ rfl rfl rfl

/-- C7: `start_new_chat` returns the rendered UUID of its random draw, the
`/start_chat` route performs no persistence call, and two invocations with
distinct 122-bit random draws return distinct identifiers. -/
theorem start_new_chat_distinct (r₁ r₂ : Nat) (h₁ : r₁ < 2 ^ 122) (h₂ : r₂ < 2 ^ 122)
    (hne : r₁ ≠ r₂) :
    (start_chat r₁).storeCalls = [] ∧ (start_chat r₁).status = 200 ∧
    (start_chat r₁).chat_id = start_new_chat r₁ ∧
    start_new_chat r₁ ≠ start_new_chat r₂ := by
  refine ⟨rfl, rfl, rfl, ?_⟩
  intro he
  apply hne
  have hd : uuidDecode (uuidString (uuid4 r₁)) = uuidDecode (uuidString (uuid4 r₂)) :=
    congrArg uuidDecode he
  rw [uuidDecode_uuidString _ (uuid4_lt r₁ h₁), uuidDecode_uuidString _ (uuid4_lt r₂ h₂)] at hd
  have hrr := congrArg uuidRand hd
  rwa [uuidRand_uuid4 r₁ h₁, uuidRand_uuid4 r₂ h₂] at hrr

/-- Witness for C7 at the draws 0 and 1. -/
theorem start_new_chat_distinct_witness :
    (start_chat 0).storeCalls = [] ∧ (start_chat 0).status = 200 ∧
    (start_chat 0).chat_id = start_new_chat 0 ∧
    start_new_chat 0 ≠ start_new_chat 1 :=
  start_new_chat_distinct 0 1 (by norm_num) (by norm_num) (by norm_num)

/-- C8: if `SUPABASE_URL` or `SUPABASE_KEY` is absent from the environment,
the startup check raises the fatal configuration error, so no route is ever
served. -/
theorem missing_config_fails_startup (env : String → Option String)
    (habs : env ("SUPABASE_URL") = none ∨ env ("SUPABASE_KEY") = none) :
    supabaseStartupCheck env = Except.error configErrorMessage := by
  unfold supabaseStartupCheck
  rcases habs with h | h <;> rw [h] <;> simp [pyTruthy]

/-- Witness for C8 with an empty environment. -/
theorem missing_config_fails_startup_witness :
    supabaseStartupCheck (fun _ => none) = Except.error configErrorMessage :=
  missing_config_fails_startup _ (Or.inl rfl)

/-- C9: a retrieval-chain failure can never produce the 500 response: with the
history fetch succeeding and the chain always raising, the `/chat` response is
200 (not 500) and carries the apology as `bot_response`; the apology string is
distinct from the 500 error body. -/
theorem pipeline_failure_not_500
    (retrieve : String → Except String (Option (List Exchange)))
    (retrieval_chain : String → List Exchange → Except String String)
    (store_chat_history : String → List Exchange → Except String Unit)
    (now : String) (chat_id user_message : Option String)
    (stored : Option (List Exchange)) (e : String)
    (hret : retrieve (chat_id.getD "") = Except.ok stored)
    (hcid : pyTruthy chat_id = true) (hmsg : pyTruthy user_message = true)
    (hfail : ∀ q h, retrieval_chain q h = Except.error e) :
    (chat retrieve retrieval_chain store_chat_history now chat_id user_message).status
        = 200 ∧
    (chat retrieve retrieval_chain store_chat_history now chat_id user_message).status
        ≠ 500 ∧
    (chat retrieve retrieval_chain store_chat_history now chat_id user_message).body
        = ChatBody.ok apologyMessage
            (pyLastN 50 (stored.getD [] ++ [⟨now, user_message.getD "", apologyMessage⟩])) ∧
    apologyMessage ≠ serverErrorMessage := by
  refine ⟨?_, ?_, ?_, by decide⟩ <;>
    simp [chat, hcid, hmsg, hret, process_user_message, generate_chatbot_response, hfail]

/-- Witness for C9 with a chain that always raises. -/
theorem pipeline_failure_not_500_witness :
    (chat (fun _ => Except.ok (some [])) (fun _ _ => Except.error ("boom"))
        (fun _ _ => Except.ok ()) ("t") (some ("c")) (some ("m"))).status = 200 ∧
    (chat (fun _ => Except.ok (some [])) (fun _ _ => Except.error ("boom"))
        (fun _ _ => Except.ok ()) ("t") (some ("c")) (some ("m"))).status ≠ 500 ∧
    (chat (fun _ => Except.ok (some [])) (fun _ _ => Except.error ("boom"))
        (fun _ _ => Except.ok ()) ("t") (some ("c")) (some ("m"))).body
      = ChatBody.ok apologyMessage
          (pyLastN 50 ((some ([] : List Exchange)).getD []
            ++ [⟨("t"), (some ("m")).getD "", apologyMessage⟩])) ∧
    apologyMessage ≠ serverErrorMessage :=
  pipeline_failure_not_500 _ _ _ _ _ _ _ _ rfl rfl rfl (fun _ _ => rfl)

/-- C10: the pair returned by `process_user_message` is internally
consistent: the updated history is non-empty, its last entry carries the
input message and the returned answer, and the retained earlier entries are a
suffix of the input history (their relative order is preserved). -/
theorem process_user_message_consistent
    (retrieval_chain : String → List Exchange → Except String String)
    (store_chat_history : String → List Exchange → Except String Unit)
    (now chat_id user_message : String) (chat_history : List Exchange)
    (hmsg : user_message ≠ "") :
    (process_user_message retrieval_chain store_chat_history now chat_id user_message
        chat_history).chat_history ≠ [] ∧
    (process_user_message retrieval_chain store_chat_history now chat_id user_message
        chat_history).chat_history.getLast?
      = some ⟨now, user_message,
          (process_user_message retrieval_chain store_chat_history now chat_id user_message
            chat_history).bot_response⟩ ∧
    (process_user_message retrieval_chain store_chat_history now chat_id user_message
        chat_history).chat_history.dropLast <:+ chat_history := by
  have hb : (process_user_message retrieval_chain store_chat_history now chat_id user_message
      chat_history).bot_response
      = generate_chatbot_response retrieval_chain user_message chat_history := rfl
  rw [hb, process_chat_history_eq]
  refine ⟨by simp, ?_, ?_⟩
  · exact List.getLast?_concat _
  · rw [List.dropLast_concat]
    exact List.drop_suffix _ _

/-- Witness for C10 at a concrete input. -/
theorem process_user_message_consistent_witness :
    ("m" : String) ≠ "" ∧
    ((process_user_message (fun _ _ => Except.ok ("a")) (fun _ _ => Except.ok ())
        ("t") ("c") ("m") []).chat_history ≠ [] ∧
     (process_user_message (fun _ _ => Except.ok ("a")) (fun _ _ => Except.ok ())
        ("t") ("c") ("m") []).chat_history.getLast?
       = some ⟨("t"), ("m"),
           (process_user_message (fun _ _ => Except.ok ("a")) (fun _ _ => Except.ok ())
             ("t") ("c") ("m") []).bot_response⟩ ∧
     (process_user_message (fun _ _ => Except.ok ("a")) (fun _ _ => Except.ok ())
        ("t") ("c") ("m") []).chat_history.dropLast <:+ ([] : List Exchange)) :=
  ⟨by decide, process_user_message_consistent _ _ _ _ _ _ (by decide)⟩

end BDMChatbot
